import Mathlib

/-!
A verification development for the account/authorization core of the
elasic-api repository (files `derailedapi/database.py`,
`discorse/users/routes.py`).

Python strings are modelled as `List Char` (named `Str` below), bytes as
`List Nat` (each < 256).  The external collaborators are modelled as
explicit parameters:
  * the itsdangerous HMAC signature is an abstract `mac : Str → Str → Str`
    (the timestamped signature body is kept concrete, only the raw
    signature bytes-to-base64 step is abstract);
  * the argon2 hash/verify pair is an abstract `pverify : Str → Str → Bool`;
  * pyotp's `TOTP(secret).now()` is an abstract `totpNow : Str → Str`;
  * `random.randint` draws are supplied as an explicit list of rolls.
-/

/-- Python `str`, modelled as a list of characters. -/

abbrev Str : Type := List Char

/-- Python `bytes`, modelled as a list of naturals (each < 256 in use). -/
abbrev Bytes : Type := List Nat

/-! ## Base64 (RFC 4648 standard alphabet), as used by `base64.b64encode`
and `base64.b64decode` on the token's id segment. -/
/-- The base64 alphabet character for a 6-bit value. -/
def b64Char (n : Nat) : Char :=
  if n < 26 then Char.ofNat (65 + n)
  else if n < 52 then Char.ofNat (97 + (n - 26))
  else if n < 62 then Char.ofNat (48 + (n - 52))
  else if n = 62 then '+'
  else '/'

/-- The 6-bit value of a base64 alphabet character, `none` off-alphabet. -/
def b64Val (c : Char) : Option Nat :=
  if 65 ≤ c.toNat ∧ c.toNat ≤ 90 then some (c.toNat - 65)
  else if 97 ≤ c.toNat ∧ c.toNat ≤ 122 then some (c.toNat - 97 + 26)
  else if 48 ≤ c.toNat ∧ c.toNat ≤ 57 then some (c.toNat - 48 + 52)
  else if c = '+' then some 62
  else if c = '/' then some 63
  else none

/-- `base64.b64encode`: 3 input bytes become 4 alphabet characters, with
`'='` padding for a 1- or 2-byte tail. -/
def b64encode : Bytes → Str
  | [] => []
  | [a] => [b64Char (a / 4), b64Char (a % 4 * 16), '=', '=']
  | [a, b] => [b64Char (a / 4), b64Char (a % 4 * 16 + b / 16), b64Char (b % 16 * 4), '=']
  | a :: b :: c :: rest =>
      b64Char (a / 4) :: b64Char (a % 4 * 16 + b / 16) ::
      b64Char (b % 16 * 4 + c / 64) :: b64Char (c % 64) :: b64encode rest

/-- A character `base64.b64decode` keeps (the default `validate=False`
discards every character outside the alphabet and the padding). -/
def b64Keep (c : Char) : Bool := (b64Val c).isSome || c = '='

/-- Decode a run of 4-character base64 groups; padding only in the final
group.  Fails (`none`) when the kept-character count is not a multiple
of 4 or padding is misplaced — `binascii.Error` in Python. -/
def b64decodeRun : Str → Option Bytes
  | [] => some []
  | c1 :: c2 :: c3 :: c4 :: rest =>
    if c3 = '=' then
      if c4 = '=' ∧ rest = [] then
        match b64Val c1, b64Val c2 with
        | some v1, some v2 => some [v1 * 4 + v2 / 16]
        | _, _ => none
      else none
    else if c4 = '=' then
      if rest = [] then
        match b64Val c1, b64Val c2, b64Val c3 with
        | some v1, some v2, some v3 => some [v1 * 4 + v2 / 16, v2 % 16 * 16 + v3 / 4]
        | _, _, _ => none
      else none
    else
      match b64Val c1, b64Val c2, b64Val c3, b64Val c4 with
      | some v1, some v2, some v3, some v4 =>
        match b64decodeRun rest with
        | some more =>
            some ((v1 * 4 + v2 / 16) :: (v2 % 16 * 16 + v3 / 4) :: (v3 % 4 * 64 + v4) :: more)
        | none => none
      | _, _, _, _ => none
  | _ => none

/-- `base64.b64decode` with the default `validate=False`. -/
def b64decode (s : Str) : Option Bytes := b64decodeRun (s.filter b64Keep)

/-! ## Decimal representation and parsing (`str(user_id)` / `int(bytes)`) -/
/-- The ASCII digit character for `d < 10`. -/
def digitChar (d : Nat) : Char := Char.ofNat (48 + d)

/-- Big-endian decimal digits of `n`, fuel-driven so that the kernel can
evaluate it; `natRepr` supplies sufficient fuel. -/
def natReprAux : Nat → Nat → Str
  | 0, _ => []
  | fuel + 1, n => if n = 0 then [] else natReprAux fuel (n / 10) ++ [digitChar (n % 10)]

/-- `str(n)` for a natural number: its decimal representation. -/
def natRepr (n : Nat) : Str := if n = 0 then ['0'] else natReprAux (n + 1) n

/-- An ASCII decimal digit byte. -/
def isDigitByte (b : Nat) : Bool := 48 ≤ b && b ≤ 57

/-- `int(bs)` on a byte string, restricted to the unsigned plain-decimal
forms (the only ones produced by `create_token`; Python additionally
strips whitespace and accepts a sign, which no claim exercises).
Fails (`ValueError`) on an empty string or any non-digit byte. -/
def parseDecBytes (bs : Bytes) : Option Nat :=
  if bs ≠ [] ∧ bs.all isDigitByte then
    some (bs.foldl (fun acc b => acc * 10 + (b - 48)) 0)
  else none

/-- `s.encode()`: UTF-8 bytes of a string; all strings handled by the
token codec are ASCII, for which this is the code-point list. -/
def strEncode (s : Str) : Bytes := s.map Char.toNat

/-! ## Python-style string splitting -/
/-- Python `s.split('.')` on a character list; the result is always
nonempty (`''.split('.') == ['']`). -/
def pySplitDot : Str → List Str
  | [] => [[]]
  | c :: rest =>
    if c = '.' then [] :: pySplitDot rest
    else
      match pySplitDot rest with
      | [] => [[c]]
      | p :: ps => (c :: p) :: ps

/-- Python `s.rsplit('.', 1)` as used by `itsdangerous.Signer.unsign`:
split at the last dot, `none` when no dot occurs. -/
def rsplitLastDot : Str → Option (Str × Str)
  | [] => none
  | c :: rest =>
    match rsplitLastDot rest with
    | some (v, s) => some (c :: v, s)
    | none => if c = '.' then some ([], rest) else none

/-! ## Data model (`derailedapi/database.py`)

Records are modelled with the columns the authorization core reads or
writes.  cqlengine semantics assumed (documented here once): a `.get()`
returning no row raises `NotFound`; a column not named in an
`.only(...)` projection (or named in a `.defer(...)`) is not loaded, and
reading it on the returned object yields the model's falsy column
default; `.only`/`.defer` with a name that is not a column of the model
raise a `QueryException`. -/
/-- Shortcut for writing `List Char` literals. -/
def sl (s : String) : Str := s.data

/-- A row of the `users` table, with the columns the core consults. -/
structure VUser where
  id : Nat
  email : Str
  password : Str
  username : Str
  discriminator : Str
  avatar : Str
  banner : Str
  flags : Nat
  bot : Bool
  verified : Option Bool
deriving DecidableEq

/-- The column defaults of `User`, which is also what an unloaded column
reads as (`avatar`/`banner` default `''`, `flags` 0, `bot` False,
`verified` False; `Text` columns without a default read as falsy `None`,
modelled `[]`). -/
def blankUser : VUser :=
  { id := 0, email := [], password := [], username := [], discriminator := [],
    avatar := [], banner := [], flags := 0, bot := false, verified := some false }

/-- A row of the `settings` table (created with its defaults at
registration; `mfa_code` has no default). -/
structure VSettings where
  user_id : Nat
  locale : Str
  developer_mode : Bool
  theme : Str
  status : Str
  mfa_enabled : Bool
  mfa_code : Str
  friend_requests_off : Bool
deriving DecidableEq

/-- The `Settings` defaults used by `Settings.create(user_id=...)`. -/
def defaultSettings (uid : Nat) : VSettings :=
  { user_id := uid, locale := sl "en-US", developer_mode := false, theme := sl "dark",
    status := sl "invisible", mfa_enabled := false, mfa_code := [],
    friend_requests_off := false }

/-- A row of the `recovery_codes` table. -/
structure VRecoveryCode where
  user_id : Nat
  code : Str
deriving DecidableEq

/-- A row of the `members` table; only `user_id` is consulted by this
core (`Member.objects(Member.user_id == ...).count()`), the remaining
guild-side columns are never read here. -/
structure VMember where
  guild_id : Nat
  user_id : Nat
deriving DecidableEq

/-- A row of the `gateway_session_limit` table.  The table carries
`default_time_to_live = 43200`; `insertedAt` records the write time so
the 12-hour expiry can be modelled: a row is visible only while
`now < insertedAt + 43200`. -/
structure VGatewayEntry where
  user_id : Nat
  total : Nat
  remaining : Nat
  max_concurrency : Nat
  insertedAt : Nat
deriving DecidableEq

/-- The keyed-record store: the tables the authorization core touches. -/
structure Store where
  users : List VUser
  settings : List VSettings
  recoveryCodes : List VRecoveryCode
  members : List VMember
  gateway : List VGatewayEntry
deriving DecidableEq

/-- `User.objects(User.id == uid).get()`, as an `Option`. -/
def findUser (store : Store) (uid : Nat) : Option VUser :=
  store.users.find? (fun u => u.id == uid)

/-- `User.objects(User.email == email).get()`, as an `Option`. -/
def findByEmail (store : Store) (email : Str) : Option VUser :=
  store.users.find? (fun u => u.email == email)

/-- `Settings.objects(Settings.user_id == uid).get()`, as an `Option`. -/
def findSettings (store : Store) (uid : Nat) : Option VSettings :=
  store.settings.find? (fun s => s.user_id == uid)

/-- The errors surfaced by the modelled operations: `HTTPError(status,
message)`, an uncaught cqlengine `NotFound`, and an uncaught cqlengine
`QueryException` (invalid projection field). -/
inductive VErr where
  | http (status : Nat) (msg : String)
  | notFoundEx
  | queryException
deriving DecidableEq

/-- The column names of the `User` model, against which `.only`/`.defer`
arguments are validated. -/
def knownUserFields : List Str :=
  [sl "id", sl "email", sl "password", sl "username", sl "discriminator",
   sl "avatar", sl "banner", sl "flags", sl "bot", sl "verified"]

/-- The record produced by fetching user `u` with `.only(fs)`: listed
columns are loaded, every other column reads as its falsy default. -/
def userOnly (u : VUser) (fs : List Str) : VUser :=
  { id := if sl "id" ∈ fs then u.id else blankUser.id,
    email := if sl "email" ∈ fs then u.email else blankUser.email,
    password := if sl "password" ∈ fs then u.password else blankUser.password,
    username := if sl "username" ∈ fs then u.username else blankUser.username,
    discriminator := if sl "discriminator" ∈ fs then u.discriminator else blankUser.discriminator,
    avatar := if sl "avatar" ∈ fs then u.avatar else blankUser.avatar,
    banner := if sl "banner" ∈ fs then u.banner else blankUser.banner,
    flags := if sl "flags" ∈ fs then u.flags else blankUser.flags,
    bot := if sl "bot" ∈ fs then u.bot else blankUser.bot,
    verified := if sl "verified" ∈ fs then u.verified else blankUser.verified }

/-- The record produced by fetching user `u` with `.defer(fs)`: listed
columns are not loaded and read as their falsy defaults. -/
def userDefer (u : VUser) (fs : List Str) : VUser :=
  { id := if sl "id" ∈ fs then blankUser.id else u.id,
    email := if sl "email" ∈ fs then blankUser.email else u.email,
    password := if sl "password" ∈ fs then blankUser.password else u.password,
    username := if sl "username" ∈ fs then blankUser.username else u.username,
    discriminator := if sl "discriminator" ∈ fs then blankUser.discriminator else u.discriminator,
    avatar := if sl "avatar" ∈ fs then blankUser.avatar else u.avatar,
    banner := if sl "banner" ∈ fs then blankUser.banner else u.banner,
    flags := if sl "flags" ∈ fs then blankUser.flags else u.flags,
    bot := if sl "bot" ∈ fs then blankUser.bot else u.bot,
    verified := if sl "verified" ∈ fs then blankUser.verified else u.verified }

/-- `User.objects(User.id == uid).only(fs).get()`: a `QueryException`
for an unknown column name, `NotFound` for a missing row (both escape
`verify_token`'s `try`, which catches only `BadSignature`). -/
def fetchOnly (store : Store) (uid : Nat) (fs : List Str) : Except VErr VUser :=
  if fs.all (fun f => decide (f ∈ knownUserFields)) then
    match findUser store uid with
    | some u => .ok (userOnly u fs)
    | none => .error .notFoundEx
  else .error .queryException

/-- `User.objects(User.id == uid).defer(fs).get()`. -/
def fetchDefer (store : Store) (uid : Nat) (fs : List Str) : Except VErr VUser :=
  if fs.all (fun f => decide (f ∈ knownUserFields)) then
    match findUser store uid with
    | some u => .ok (userDefer u fs)
    | none => .error .notFoundEx
  else .error .queryException

/-- `User.objects(User.id == uid).only(fs).defer(rs).get()`: the
include-list is applied, then the defer-list (the spec's "include-list
takes precedence"). -/
def fetchOnlyDefer (store : Store) (uid : Nat) (fs rs : List Str) : Except VErr VUser :=
  if fs.all (fun f => decide (f ∈ knownUserFields)) then
    if rs.all (fun f => decide (f ∈ knownUserFields)) then
      match findUser store uid with
      | some u => .ok (userDefer (userOnly u fs) rs)
      | none => .error .notFoundEx
    else .error .queryException
  else .error .queryException

/-! ## Token codec (`create_token` / `verify_token`) -/
/-- `create_token(user_id, user_password)`: the bearer token
`b64(str(user_id)) + '.' + timestamp + '.' + signature`, produced by
`itsdangerous.TimestampSigner(user_password).sign(...)`.  `mac` is the
signer's opaque signature primitive (keyed by the signing secret, over
the `value.timestamp` body); `ts` is the signer's opaque base64
timestamp for the moment of signing. -/
def create_token (mac : Str → Str → Str) (ts : Str) (user_id : Nat) (user_password : Str) : Str :=
  let payload := b64encode (strEncode (natRepr user_id))
  payload ++ '.' :: ts ++ '.' :: mac user_password (payload ++ '.' :: ts)

/-- `TimestampSigner(key).unsign(token)` succeeds iff the part after the
last `'.'` is the key's signature of the part before it, and that part
still contains a `'.'` separating value from timestamp (otherwise
`BadSignature` / `BadTimeSignature`, both caught identically). -/
def unsignOk (mac : Str → Str → Str) (key : Str) (token : Str) : Bool :=
  match rsplitLastDot token with
  | none => false
  | some (v, sig) => sig == mac key v && v.contains '.'

/-- The `fields` / `rm_fields` arguments of `verify_token`:
`list[str] | str | None`. -/
inductive PyFields where
  | none
  | str (s : Str)
  | list (l : List Str)
deriving DecidableEq

/-- `if x is not None and not isinstance(x, list): x = list(x)` — a
string argument is exploded into its characters. -/
def normFields : PyFields → Option (List Str)
  | .none => Option.none
  | .str s => some (s.map fun c => [c])
  | .list l => some l

/-- Python truthiness of the normalized argument (`None` and `[]` are
falsy). -/
def truthyFields : Option (List Str) → Bool
  | some (_ :: _) => true
  | _ => false

/-- `verify_token(token, fields, rm_fields)` of `database.py`. -/
def verify_token (mac : Str → Str → Str) (store : Store) (token : Option Str)
    (fields rm_fields : PyFields) : Except VErr VUser :=
  match token with
  | Option.none => .error (.http 401 "Authorization is invalid")
  | some tok =>
    match (b64decode ((pySplitDot tok).headD [])).bind parseDecBytes with
    | Option.none => .error (.http 401 "Failed to get container volume for Authorization")
    | some uid =>
      match findUser store uid with
      | Option.none => .error (.http 401 "Object for Authorization not found")
      | some u =>
        let proj := userOnly u [sl "password"]
        if unsignOk mac proj.password tok then
          let f := normFields fields
          let r := normFields rm_fields
          if f = some [sl "id"] then
            .ok { proj with id := uid }
          else if truthyFields f && truthyFields r then
            fetchOnlyDefer store uid (f.getD []) (r.getD [])
          else if truthyFields f then
            fetchOnly store uid (f.getD [])
          else if truthyFields r then
            fetchDefer store uid (r.getD [])
          else
            match findUser store uid with
            | some u' => .ok u'
            | Option.none => .error .notFoundEx
        else .error (.http 401 "Signature on Authorization is Invalid")

/-! ## User routes (`discorse/users/routes.py`) -/
/-- `is_too_used(username)`: `User.objects(User.username ==
username).count()`. -/
def countUsername (store : Store) (username : Str) : Nat :=
  (store.users.filter (fun u => u.username == username)).length

/-- `is_too_used(username)`: rejects when strictly more than 9000 users
already carry the username. -/
def is_too_used (store : Store) (username : Str) : Except VErr Unit :=
  if countUsername store username > 9000 then
    .error (.http 400 "Too many people are using this username.")
  else .ok ()

/-- `'%04d' % n` for `0 ≤ n ≤ 9999`: the zero-padded 4-digit string
produced by `roll_discriminator`. -/
def pad4 (n : Nat) : Str :=
  [digitChar (n / 1000 % 10), digitChar (n / 100 % 10), digitChar (n / 10 % 10),
   digitChar (n % 10)]

/-- Whether `User.objects(User.username == u, User.discriminator ==
d).get()` finds a row (its success is the allocator's collision case). -/
def discriminatorTaken (store : Store) (username d : Str) : Bool :=
  store.users.any (fun u => u.username == username && u.discriminator == d)

/-- `get_recoveries(user_id)`: the codes of every `RecoveryCode` row of
the user. -/
def get_recoveries (store : Store) (uid : Nat) : List Str :=
  (store.recoveryCodes.filter (fun r => r.user_id == uid)).map (fun r => r.code)

/-- `get_available_discriminator(username)`.  The ten draws of
`roll_discriminator()` are supplied as the oracle list `rolls` (the
loop consumes at most the first ten entries); the first draw free of a
(username, discriminator) collision is returned, `none` when every
attempt collides. -/
def get_available_discriminator (store : Store) (username : Str) (rolls : List Str) :
    Except VErr (Option Str) :=
  match is_too_used store username with
  | .error e => .error e
  | .ok _ => .ok ((rolls.take 10).find? (fun d => !discriminatorTaken store username d))

/-- `verify_mfa(user_id, code)` — note the acceptance condition in the
source is `code not in recoveries or code != totp.now()`. -/
def verify_mfa (totpNow : Str → Str) (store : Store) (user_id : Nat) (code : Option Str) :
    Except VErr Unit :=
  match findSettings store user_id with
  | Option.none => .error .notFoundEx
  | some setting =>
    let recoveries := get_recoveries store user_id
    if setting.mfa_enabled then
      match code with
      | Option.none => .error (.http 403 "mfa_code is a required field for users with mfa.")
      | some c =>
        if c = [] then .error (.http 403 "mfa_code is a required field for users with mfa.")
        else if c ∉ recoveries ∨ c ≠ totpNow setting.mfa_code then
          .error (.http 403 "mfa code is invalid.")
        else .ok ()
    else .ok ()

/-- `create_user(json)`: duplicate-email check, discriminator
allocation, password hash, `User.create` + `Settings.create`.  `hash`
is the opaque argon2 hasher, `newId` the forged id, `rolls` the
allocator's random draws. -/
def create_user (hash : Str → Str) (newId : Nat) (rolls : List Str) (store : Store)
    (email username password : Str) : Except VErr (VUser × Store) :=
  match findByEmail store email with
  | some _ => .error (.http 400 "This email is already used.")
  | Option.none =>
    match get_available_discriminator store username rolls with
    | .error e => .error e
    | .ok Option.none => .error (.http 400 "Too many people are using this username.")
    | .ok (some d) =>
      let u : VUser :=
        { id := newId, email := email, password := hash password, username := username,
          discriminator := d, avatar := [], banner := [], flags := 0, bot := false,
          verified := some false }
      .ok (u, { store with users := store.users ++ [u],
                           settings := store.settings ++ [defaultSettings newId] })

/-- `login(json)`: email lookup projected to `['password', 'id']`,
argon2 verification (`pverify stored supplied`), MFA check, token
issuance. -/
def login (mac : Str → Str → Str) (pverify : Str → Str → Bool) (totpNow : Str → Str)
    (ts : Str) (store : Store) (email password : Str) (code : Option Str) :
    Except VErr Str :=
  match findByEmail store email with
  | Option.none => .error (.http 400 "Invalid email or password")
  | some u0 =>
    let with_pswd := userOnly u0 [sl "password", sl "id"]
    if pverify with_pswd.password password then
      match verify_mfa totpNow store with_pswd.id code with
      | .error e => .error e
      | .ok _ => .ok (create_token mac ts with_pswd.id with_pswd.password)
    else .error (.http 400 "Invalid email or password")

/-! ## Gateway session limits (`get_gateway`) -/
/-- `Member.objects(Member.user_id == uid).count()`. -/
def guildCount (store : Store) (uid : Nat) : Nat :=
  (store.members.filter (fun m => m.user_id == uid)).length

/-- The ledger row of `uid` still inside its 12-hour TTL at `now`. -/
def gwFind (store : Store) (now uid : Nat) : Option VGatewayEntry :=
  store.gateway.find? (fun e => e.user_id == uid && decide (now < e.insertedAt + 43200))

/-- `dict(entry)` for a full `GatewaySessionLimit` row. -/
def gwDict (e : VGatewayEntry) : List (String × Nat) :=
  [("user_id", e.user_id), ("total", e.total), ("remaining", e.remaining),
   ("max_concurrency", e.max_concurrency)]

/-- `dict(...)` of the row fetched with `.defer(['user_id'])`: the
deferred key is not loaded and not serialized. -/
def gwDictDeferUser (e : VGatewayEntry) : List (String × Nat) :=
  [("total", e.total), ("remaining", e.remaining), ("max_concurrency", e.max_concurrency)]

/-- `d.pop(k)`, keeping the rest of the dict. -/
def popKey (l : List (String × Nat)) (k : String) : List (String × Nat) :=
  l.filter (fun p => p.1 ≠ k)

/-- The value returned by the `/gateway` route. -/
structure GatewayResp where
  url : String
  shards : Nat
  session_start_limit : List (String × Nat)
deriving DecidableEq

/-- `get_gateway(headers)`: authorize with the id-only projection, read
or create the ledger row (fresh rows get the column defaults
`total=1000, remaining=1000, max_concurrency=16` and live 12 hours),
compute the shard count (`int(guild_count / 1000)` is floor division
for the non-negative count). -/
def get_gateway (mac : Str → Str → Str) (store : Store) (now : Nat) (token : Option Str) :
    Except VErr (GatewayResp × Store) :=
  match verify_token mac store token (.list [sl "id"]) .none with
  | .error e => .error e
  | .ok user =>
    let fetched :=
      match gwFind store now user.id with
      | some g => (gwDictDeferUser g, store)
      | Option.none =>
        let fresh : VGatewayEntry :=
          { user_id := user.id, total := 1000, remaining := 1000, max_concurrency := 16,
            insertedAt := now }
        (popKey (gwDict fresh) "user_id",
         { store with gateway := store.gateway ++ [fresh] })
    let shards := if user.bot then max (guildCount store user.id / 1000) 1 else 1
    .ok ({ url := "wss://gateway.derailed.one", shards := shards,
           session_start_limit := fetched.1 }, fetched.2)

/-! ## Value normalization (`objectify`) -/
/-- A Python value as handled by `objectify`: ints, bools (which are
`int` instances in Python), strings, `None`, lists and dicts. -/
inductive PyVal where
  | int (n : Int)
  | bool (b : Bool)
  | str (s : Str)
  | pynone
  | list (l : List PyVal)
  | dict (d : List (Str × PyVal))

/-- `isinstance(v, int)` — true of bools as well. -/
def isIntLike : PyVal → Bool
  | .int _ => true
  | .bool _ => true
  | _ => false

/-- The numeric value of an int-like (`True == 1`, `False == 0`). -/
def intLikeVal : PyVal → Int
  | .int n => n
  | .bool b => if b then 1 else 0
  | _ => 0

/-- `str(v)` for the int-likes (`str(True) == 'True'`). -/
def pyStrOfIntLike : PyVal → Str
  | .int n => if n < 0 then '-' :: natRepr n.natAbs else natRepr n.natAbs
  | .bool b => if b then sl "True" else sl "False"
  | _ => []

/-- `'permissions' in k`: substring containment. -/
def containsPermissions (k : Str) : Bool :=
  (List.range (k.length + 1)).any (fun i => (k.drop i).take 11 == sl "permissions")

/-- The stringification condition of `objectify`'s dict branch:
`isinstance(v, int) and v > 2147483647 or isinstance(v, int) and
'permissions' in k`. -/
def objStringify (k : Str) (v : PyVal) : Bool :=
  (isIntLike v && decide (intLikeVal v > 2147483647)) || (isIntLike v && containsPermissions k)

mutual
/-- `objectify(data)` of `database.py`. -/
def objectify : PyVal → PyVal
  | .dict d => .dict (objDict d)
  | .list l => .list (objList l)
  | v => v

/-- The dict branch: an int-like value that is oversized or under a
`permissions` key is stringified; a list value has `objectify` mapped
over its dict/list items; every other value — nested dicts included —
is left as is. -/
def objDict : List (Str × PyVal) → List (Str × PyVal)
  | [] => []
  | (k, v) :: rest =>
    (if objStringify k v then (k, .str (pyStrOfIntLike v))
     else match v with
          | .list items => (k, .list (objList items))
          | _ => (k, v)) :: objDict rest

/-- The list branch: `objectify` is applied to the dict/list items, the
rest pass through. -/
def objList : List PyVal → List PyVal
  | [] => []
  | item :: rest =>
    (match item with
     | .dict d => objectify (.dict d)
     | .list l => objectify (.list l)
     | v => v) :: objList rest
end

/-! ## Token round-trip lemmas (claims C4, C5, C8, C10) -/
/-- The id segment of a token: `base64.b64encode(str(user_id).encode())`. -/
def tokenPayload (uid : Nat) : Str := b64encode (strEncode (natRepr uid))

/-- A concrete dot-free signature function for witnesses: a marker
character followed by key and message with the separators stripped. -/
def macW (k v : Str) : Str := 's' :: (k ++ v).filter (fun c => c ≠ '.')

/-- A concrete user and store for witnesses. -/
def uW : VUser :=
  { id := 7, email := sl "w@x.y", password := sl "h1", username := sl "alice",
    discriminator := sl "0001", avatar := [], banner := [], flags := 0, bot := false,
    verified := some false }

def stW : Store :=
  { users := [uW], settings := [], recoveryCodes := [], members := [], gateway := [] }

/-! ## MFA and login (claims C1, C6) -/
/-- A concrete TOTP oracle for witnesses: the live code of every secret
is `"123456"`. -/
def totpW : Str → Str := fun _secret => sl "123456"

/-- A concrete argon2 stand-in for witnesses: the stored hash verifies
exactly the equal string. -/
def pverifyW : Str → Str → Bool := fun stored supplied => stored == supplied

/-- Settings and store of a user with MFA enabled and one recovery
code `"RRRR"`. -/
def mfaSettings : VSettings :=
  { defaultSettings 7 with mfa_enabled := true, mfa_code := sl "SECRET" }

def mfaStore : Store :=
  { users := [uW], settings := [mfaSettings], recoveryCodes := [⟨7, sl "RRRR"⟩],
    members := [], gateway := [] }

/-- The i-th of a population of users sharing the username `"bob"`,
with pairwise distinct 4-digit discriminators `0001 …`. -/
def c7mk (i : Nat) : VUser :=
  { id := i, email := 'e' :: natRepr i, password := sl "p", username := sl "bob",
    discriminator := pad4 (i + 1), avatar := [], banner := [], flags := 0, bot := false,
    verified := some false }

/-- A store holding exactly `n` users named `"bob"` (distinct
discriminators) and nothing else. -/
def c7StoreN (n : Nat) : Store :=
  { users := (List.range n).map c7mk, settings := [], recoveryCodes := [], members := [],
    gateway := [] }

/-- A concrete argon2 hash stand-in for witnesses. -/
def hashW : Str → Str := fun s => 'H' :: s

/-- The user record `create_user` produces for the 9001-st `"bob"`. -/
def c7NewUser : VUser :=
  { id := 424242, email := sl "new@x.y", password := hashW (sl "pw"), username := sl "bob",
    discriminator := sl "9500", avatar := [], banner := [], flags := 0, bot := false,
    verified := some false }

/-! ## Gateway session limits (claim C9) -/
/-- A bot account. -/
def botUser : VUser :=
  { id := 5, email := sl "b@x.y", password := sl "bp", username := sl "shardbot",
    discriminator := sl "0001", avatar := [], banner := [], flags := 0, bot := true,
    verified := some false }

/-- 2500 guild memberships of the bot. -/
def botMembers : List VMember := (List.range 2500).map (fun i => ⟨i, 5⟩)

def botStore : Store :=
  { users := [botUser], settings := [], recoveryCodes := [], members := botMembers,
    gateway := [] }

/-! ### Base64 round-trip -/
theorem b64Val_b64Char {n : Nat} (h : n < 64) : b64Val (b64Char n) = some n := by
  interval_cases n <;> decide

theorem b64Char_ne_eq {n : Nat} (h : n < 64) : b64Char n ≠ '=' := by
  interval_cases n <;> decide

theorem b64Char_ne_dot {n : Nat} (h : n < 64) : b64Char n ≠ '.' := by
  interval_cases n <;> decide

theorem b64Keep_b64Char {n : Nat} (h : n < 64) : b64Keep (b64Char n) = true := by
  simp [b64Keep, b64Val_b64Char h]

theorem b64encode_all_keep (l : Bytes) (hl : ∀ b ∈ l, b < 256) :
    ∀ c ∈ b64encode l, b64Keep c = true := by
  induction l using b64encode.induct with
  | case1 => simp [b64encode]
  | case2 a =>
    have ha : a < 256 := hl a (by simp)
    intro c hc
    simp only [b64encode, List.mem_cons, List.not_mem_nil, or_false] at hc
    rcases hc with h | h | h | h <;> subst h
    · exact b64Keep_b64Char (by omega)
    · exact b64Keep_b64Char (by omega)
    · decide
    · decide
  | case3 a b =>
    have ha : a < 256 := hl a (by simp)
    have hb : b < 256 := hl b (by simp)
    intro c hc
    simp only [b64encode, List.mem_cons, List.not_mem_nil, or_false] at hc
    rcases hc with h | h | h | h <;> subst h
    · exact b64Keep_b64Char (by omega)
    · exact b64Keep_b64Char (by omega)
    · exact b64Keep_b64Char (by omega)
    · decide
  | case4 a b c rest ih =>
    have ha : a < 256 := hl a (by simp)
    have hb : b < 256 := hl b (by simp)
    have hc : c < 256 := hl c (by simp)
    intro x hx
    simp only [b64encode, List.mem_cons] at hx
    rcases hx with h | h | h | h | h
    · subst h; exact b64Keep_b64Char (by omega)
    · subst h; exact b64Keep_b64Char (by omega)
    · subst h; exact b64Keep_b64Char (by omega)
    · subst h; exact b64Keep_b64Char (by omega)
    · exact ih (fun y hy => hl y (by simp [hy])) x h

theorem b64encode_no_dot (l : Bytes) (hl : ∀ b ∈ l, b < 256) :
    ('.' : Char) ∉ b64encode l := by
  intro hmem
  have := b64encode_all_keep l hl '.' hmem
  simp [b64Keep, b64Val] at this

theorem b64decodeRun_encode (l : Bytes) (hl : ∀ b ∈ l, b < 256) :
    b64decodeRun (b64encode l) = some l := by
  induction l using b64encode.induct with
  | case1 => rfl
  | case2 a =>
    have ha : a < 256 := hl a (by simp)
    have h1 : a / 4 < 64 := by omega
    have h2 : a % 4 * 16 < 64 := by omega
    have e1 : a % 4 * 16 / 16 = a % 4 := by omega
    simp [b64encode, b64decodeRun, b64Val_b64Char h1, b64Val_b64Char h2, e1]
    omega
  | case3 a b =>
    have ha : a < 256 := hl a (by simp)
    have hb : b < 256 := hl b (by simp)
    have h1 : a / 4 < 64 := by omega
    have h2 : a % 4 * 16 + b / 16 < 64 := by omega
    have h3 : b % 16 * 4 < 64 := by omega
    have d0 : b / 16 / 16 = 0 := Nat.div_eq_of_lt (by omega)
    have eA : (a % 4 * 16 + b / 16) / 16 = a % 4 := by
      rw [Nat.add_comm, Nat.add_mul_div_right _ _ (by norm_num : (0:Nat) < 16)]
      omega
    have eB1 : (a % 4 * 16 + b / 16) % 16 = b / 16 := by
      rw [Nat.add_comm, Nat.add_mul_mod_self_right]
      omega
    have eB2 : b % 16 * 4 / 4 = b % 16 := by omega
    simp [b64encode, b64decodeRun, b64Char_ne_eq h3,
      b64Val_b64Char h1, b64Val_b64Char h2, b64Val_b64Char h3, eA, eB1, eB2]
    omega
  | case4 a b c rest ih =>
    have ha : a < 256 := hl a (by simp)
    have hb : b < 256 := hl b (by simp)
    have hc : c < 256 := hl c (by simp)
    have h1 : a / 4 < 64 := by omega
    have h2 : a % 4 * 16 + b / 16 < 64 := by omega
    have h3 : b % 16 * 4 + c / 64 < 64 := by omega
    have h4 : c % 64 < 64 := by omega
    have d0 : b / 16 / 16 = 0 := Nat.div_eq_of_lt (by omega)
    have d1 : c / 64 / 4 = 0 := Nat.div_eq_of_lt (by omega)
    have eA : (a % 4 * 16 + b / 16) / 16 = a % 4 := by
      rw [Nat.add_comm, Nat.add_mul_div_right _ _ (by norm_num : (0:Nat) < 16)]
      omega
    have eB1 : (a % 4 * 16 + b / 16) % 16 = b / 16 := by
      rw [Nat.add_comm, Nat.add_mul_mod_self_right]
      omega
    have eB2 : (b % 16 * 4 + c / 64) / 4 = b % 16 := by
      rw [Nat.add_comm, Nat.add_mul_div_right _ _ (by norm_num : (0:Nat) < 4)]
      omega
    have eC1 : (b % 16 * 4 + c / 64) % 4 = c / 64 := by
      rw [Nat.add_comm, Nat.add_mul_mod_self_right]
      omega
    have ihr := ih (fun y hy => hl y (by simp [hy]))
    simp [b64encode, b64decodeRun, b64Char_ne_eq h3, b64Char_ne_eq h4,
      b64Val_b64Char h1, b64Val_b64Char h2, b64Val_b64Char h3, b64Val_b64Char h4, ihr,
      eA, eB1, eB2, eC1]
    omega

theorem b64decode_encode (l : Bytes) (hl : ∀ b ∈ l, b < 256) :
    b64decode (b64encode l) = some l := by
  unfold b64decode
  rw [List.filter_eq_self.mpr (b64encode_all_keep l hl)]
  exact b64decodeRun_encode l hl

theorem digitChar_toNat {d : Nat} (h : d < 10) : (digitChar d).toNat = 48 + d := by
  interval_cases d <;> decide

theorem natReprAux_digits (fuel n : Nat) :
    ∀ c ∈ natReprAux fuel n, 48 ≤ c.toNat ∧ c.toNat ≤ 57 := by
  induction fuel generalizing n with
  | zero => simp [natReprAux]
  | succ fuel ih =>
    intro c hc
    simp only [natReprAux] at hc
    by_cases h0 : n = 0
    · simp [h0] at hc
    · rw [if_neg h0] at hc
      rcases List.mem_append.mp hc with h | h
      · exact ih (n / 10) c h
      · have hd : n % 10 < 10 := Nat.mod_lt _ (by norm_num)
        simp only [List.mem_singleton] at h
        subst h
        rw [digitChar_toNat hd]
        omega

theorem foldDec_append (l : List Nat) (d : Nat) (acc : Nat) :
    (l ++ [d]).foldl (fun acc b => acc * 10 + (b - 48)) acc
      = (l.foldl (fun acc b => acc * 10 + (b - 48)) acc) * 10 + (d - 48) := by
  rw [List.foldl_append]
  rfl

theorem parse_natReprAux (fuel : Nat) :
    ∀ n, n ≠ 0 → n < 10 ^ fuel →
      (strEncode (natReprAux fuel n)).foldl (fun acc b => acc * 10 + (b - 48)) 0 = n := by
  induction fuel with
  | zero => intro n h0 hlt; omega
  | succ fuel ih =>
    intro n h0 hlt
    have hd : n % 10 < 10 := Nat.mod_lt _ (by norm_num)
    simp only [natReprAux, if_neg h0, strEncode, List.map_append, List.map_cons, List.map_nil]
    rw [foldDec_append, digitChar_toNat hd]
    by_cases hq : n / 10 = 0
    · have : natReprAux fuel (n / 10) = [] := by
        cases fuel <;> simp [natReprAux, hq]
      rw [this]
      simp only [strEncode] at *
      simp
      omega
    · have hq10 : n / 10 < 10 ^ fuel := by
        rw [Nat.pow_succ] at hlt
        omega
      have := ih (n / 10) hq hq10
      simp only [strEncode] at this
      rw [this]
      omega

theorem natRepr_digits (n : Nat) : ∀ c ∈ natRepr n, 48 ≤ c.toNat ∧ c.toNat ≤ 57 := by
  unfold natRepr
  by_cases h : n = 0
  · simp [h]
  · rw [if_neg h]
    exact natReprAux_digits (n + 1) n

theorem natRepr_bytes_lt (n : Nat) : ∀ b ∈ strEncode (natRepr n), b < 256 := by
  intro b hb
  simp only [strEncode, List.mem_map] at hb
  obtain ⟨c, hc, rfl⟩ := hb
  have := natRepr_digits n c hc
  omega

theorem natRepr_ne_nil (n : Nat) : natRepr n ≠ [] := by
  unfold natRepr
  by_cases h : n = 0
  · simp [h]
  · rw [if_neg h]
    cases hfe : natReprAux (n + 1) n with
    | nil => simp [natReprAux, h] at hfe
    | cons c cs => simp

theorem parseDecBytes_natRepr (n : Nat) :
    parseDecBytes (strEncode (natRepr n)) = some n := by
  unfold parseDecBytes
  have hdig : (strEncode (natRepr n)).all isDigitByte = true := by
    rw [List.all_eq_true]
    intro b hb
    simp only [strEncode, List.mem_map] at hb
    obtain ⟨c, hc, rfl⟩ := hb
    have := natRepr_digits n c hc
    simp [isDigitByte]
    omega
  have hne : strEncode (natRepr n) ≠ [] := by
    unfold strEncode
    simp [natRepr_ne_nil n]
  rw [if_pos ⟨hne, hdig⟩]
  by_cases h : n = 0
  · subst h; rfl
  · unfold natRepr
    rw [if_neg h]
    exact congrArg some
      (parse_natReprAux (n + 1) n h (Nat.lt_of_lt_of_le (Nat.lt_pow_self (by norm_num) n)
        (Nat.pow_le_pow_right (by norm_num) (by omega))))

theorem natRepr_no_dot (n : Nat) : ('.' : Char) ∉ natRepr n := by
  intro hmem
  have := natRepr_digits n '.' hmem
  revert this
  decide

theorem pySplitDot_ne_nil (s : Str) : pySplitDot s ≠ [] := by
  induction s with
  | nil => simp [pySplitDot]
  | cons c rest ih =>
    simp only [pySplitDot]
    by_cases h : c = '.'
    · simp [h]
    · rw [if_neg h]
      cases hs : pySplitDot rest <;> simp

theorem pySplitDot_head (xs rest : Str) (hxs : ('.' : Char) ∉ xs) :
    (pySplitDot (xs ++ '.' :: rest)).headD [] = xs := by
  induction xs with
  | nil => simp [pySplitDot]
  | cons c cs ih =>
    have hc : c ≠ '.' := fun h => hxs (h ▸ List.mem_cons_self c cs)
    have hcs : ('.' : Char) ∉ cs := fun h => hxs (List.mem_cons_of_mem c h)
    simp only [List.cons_append, pySplitDot, if_neg hc]
    cases hs : pySplitDot (cs ++ '.' :: rest) with
    | nil => exact absurd hs (pySplitDot_ne_nil _)
    | cons p ps =>
      have := ih hcs
      rw [hs] at this
      simp only [List.headD_cons] at this
      subst this
      rfl

theorem rsplitLastDot_none (s : Str) (h : ('.' : Char) ∉ s) : rsplitLastDot s = none := by
  induction s with
  | nil => rfl
  | cons c rest ih =>
    have hc : c ≠ '.' := fun hh => h (hh ▸ List.mem_cons_self c rest)
    have hr : ('.' : Char) ∉ rest := fun hh => h (List.mem_cons_of_mem c hh)
    simp [rsplitLastDot, ih hr, hc]

theorem rsplitLastDot_append (v s : Str) (hs : ('.' : Char) ∉ s) :
    rsplitLastDot (v ++ '.' :: s) = some (v, s) := by
  induction v with
  | nil => simp [rsplitLastDot, rsplitLastDot_none s hs]
  | cons c cs ih => simp [rsplitLastDot, ih]

/-! ## Properties of `objectify` (claims C2, C3) -/
theorem objStringify_str (k : Str) (s : Str) : objStringify k (.str s) = false := rfl

theorem objStringify_list (k : Str) (l : List PyVal) : objStringify k (.list l) = false := rfl

theorem objStringify_dict (k : Str) (d : List (Str × PyVal)) :
    objStringify k (.dict d) = false := rfl

theorem objDict_cons_int_str {k : Str} {n : Int} {rest : List (Str × PyVal)}
    (hs : objStringify k (.int n) = true) :
    objDict ((k, .int n) :: rest) = (k, .str (pyStrOfIntLike (.int n))) :: objDict rest := by
  simp [objDict, hs]

theorem objDict_cons_bool_str {k : Str} {b : Bool} {rest : List (Str × PyVal)}
    (hs : objStringify k (.bool b) = true) :
    objDict ((k, .bool b) :: rest) = (k, .str (pyStrOfIntLike (.bool b))) :: objDict rest := by
  simp [objDict, hs]

theorem objDict_cons_int {k : Str} {n : Int} {rest : List (Str × PyVal)}
    (hs : objStringify k (.int n) = false) :
    objDict ((k, .int n) :: rest) = (k, .int n) :: objDict rest := by
  simp [objDict, hs]

theorem objDict_cons_bool {k : Str} {b : Bool} {rest : List (Str × PyVal)}
    (hs : objStringify k (.bool b) = false) :
    objDict ((k, .bool b) :: rest) = (k, .bool b) :: objDict rest := by
  simp [objDict, hs]

theorem objDict_cons_listv {k : Str} {items : List PyVal} {rest : List (Str × PyVal)} :
    objDict ((k, .list items) :: rest) = (k, .list (objList items)) :: objDict rest := by
  simp [objDict, objStringify_list]

theorem objDict_cons_str {k : Str} {s : Str} {rest : List (Str × PyVal)} :
    objDict ((k, .str s) :: rest) = (k, .str s) :: objDict rest := by
  simp [objDict, objStringify_str]

theorem objDict_cons_pynone {k : Str} {rest : List (Str × PyVal)} :
    objDict ((k, .pynone) :: rest) = (k, .pynone) :: objDict rest := by
  simp [objDict]
  rfl

theorem objDict_cons_dict {k : Str} {sub rest : List (Str × PyVal)} :
    objDict ((k, .dict sub) :: rest) = (k, .dict sub) :: objDict rest := by
  simp [objDict, objStringify_dict]

mutual
theorem objectify_idem_aux : (v : PyVal) → objectify (objectify v) = objectify v
  | .dict d => by
      simp only [objectify]
      rw [objDict_idem d]
  | .list l => by
      simp only [objectify]
      rw [objList_idem l]
  | .int _ => rfl
  | .bool _ => rfl
  | .str _ => rfl
  | .pynone => rfl

theorem objDict_idem : (d : List (Str × PyVal)) → objDict (objDict d) = objDict d
  | [] => rfl
  | (k, v) :: rest => by
      match v with
      | .list items =>
        rw [objDict_cons_listv, objDict_cons_listv, objList_idem items, objDict_idem rest]
      | .str s => rw [objDict_cons_str, objDict_cons_str, objDict_idem rest]
      | .pynone => rw [objDict_cons_pynone, objDict_cons_pynone, objDict_idem rest]
      | .dict sub => rw [objDict_cons_dict, objDict_cons_dict, objDict_idem rest]
      | .int n =>
        by_cases hs : objStringify k (.int n) = true
        · rw [objDict_cons_int_str hs, objDict_cons_str, objDict_idem rest]
        · rw [Bool.not_eq_true] at hs
          rw [objDict_cons_int hs, objDict_cons_int hs, objDict_idem rest]
      | .bool b =>
        by_cases hs : objStringify k (.bool b) = true
        · rw [objDict_cons_bool_str hs, objDict_cons_str, objDict_idem rest]
        · rw [Bool.not_eq_true] at hs
          rw [objDict_cons_bool hs, objDict_cons_bool hs, objDict_idem rest]

theorem objList_idem : (l : List PyVal) → objList (objList l) = objList l
  | [] => rfl
  | item :: rest => by
      match item with
      | .dict d =>
        simp only [objList, objectify]
        rw [objDict_idem d, objList_idem rest]
      | .list ls =>
        simp only [objList, objectify]
        rw [objList_idem ls, objList_idem rest]
      | .int n => simp only [objList]; rw [objList_idem rest]
      | .bool b => simp only [objList]; rw [objList_idem rest]
      | .str s => simp only [objList]; rw [objList_idem rest]
      | .pynone => simp only [objList]; rw [objList_idem rest]
end

/-- C3: `objectify` is idempotent: for every record (dict or list, and in
fact every Python value) `x`, `objectify (objectify x) = objectify x`. -/
theorem C3_objectify_idempotent (x : PyVal) : objectify (objectify x) = objectify x :=
  objectify_idem_aux x

theorem objDict_cons_shape (k : Str) (v : PyVal) (rest : List (Str × PyVal)) :
    ∃ w, objDict ((k, v) :: rest) = (k, w) :: objDict rest := by
  match v with
  | .list items => exact ⟨_, objDict_cons_listv⟩
  | .str s => exact ⟨_, objDict_cons_str⟩
  | .pynone => exact ⟨_, objDict_cons_pynone⟩
  | .dict sub => exact ⟨_, objDict_cons_dict⟩
  | .int n =>
    by_cases hs : objStringify k (.int n) = true
    · exact ⟨_, objDict_cons_int_str hs⟩
    · exact ⟨_, objDict_cons_int (by simpa using hs)⟩
  | .bool b =>
    by_cases hs : objStringify k (.bool b) = true
    · exact ⟨_, objDict_cons_bool_str hs⟩
    · exact ⟨_, objDict_cons_bool (by simpa using hs)⟩

theorem objDict_keys (d : List (Str × PyVal)) :
    (objDict d).map Prod.fst = d.map Prod.fst := by
  induction d with
  | nil => rfl
  | cons e rest ih =>
    obtain ⟨k, v⟩ := e
    obtain ⟨w, hw⟩ := objDict_cons_shape k v rest
    rw [hw]
    simp [ih]

theorem objDict_mem_int_str (d : List (Str × PyVal)) (k : Str) (n : Int)
    (hmem : (k, PyVal.int n) ∈ d)
    (hcond : (2147483647 : Int) < n ∨ containsPermissions k = true) :
    (k, PyVal.str (pyStrOfIntLike (PyVal.int n))) ∈ objDict d := by
  have hs : objStringify k (.int n) = true := by
    cases hcond with
    | inl h => simp [objStringify, intLikeVal, isIntLike, h]
    | inr h => simp [objStringify, intLikeVal, isIntLike, h]
  induction d with
  | nil => cases hmem
  | cons e rest ih =>
    rcases List.mem_cons.mp hmem with he | ht
    · subst he
      rw [objDict_cons_int_str hs]
      exact List.mem_cons_self _ _
    · obtain ⟨k', v'⟩ := e
      obtain ⟨w, hw⟩ := objDict_cons_shape k' v' rest
      rw [hw]
      exact List.mem_cons_of_mem _ (ih ht)

theorem objDict_mem_dict (d : List (Str × PyVal)) (k : Str) (sub : List (Str × PyVal))
    (hmem : (k, PyVal.dict sub) ∈ d) :
    (k, PyVal.dict sub) ∈ objDict d := by
  induction d with
  | nil => cases hmem
  | cons e rest ih =>
    rcases List.mem_cons.mp hmem with he | ht
    · subst he
      rw [objDict_cons_dict]
      exact List.mem_cons_self _ _
    · obtain ⟨k', v'⟩ := e
      obtain ⟨w, hw⟩ := objDict_cons_shape k' v' rest
      rw [hw]
      exact List.mem_cons_of_mem _ (ih ht)

/-- C2 counterexample: one application of `objectify` to the record
`{'a': {'b': 2147483648}}` leaves the oversized integer inside the
nested mapping untouched (the dict branch never recurses into a dict
value), although the claim demands that it appear as its decimal string
at any nesting depth. -/
theorem C2_counterexample :
    objectify (.dict [(sl "a", .dict [(sl "b", .int 2147483648)])])
      = .dict [(sl "a", .dict [(sl "b", .int 2147483648)])] := rfl

/-- C2 (amended): after one application of `objectify` to a dict, the
key structure is unchanged, every top-level integer field that is
oversized or whose name contains "permissions" appears as its decimal
string, and every dict directly nested as a dict value is returned
entirely unchanged (not normalized); dicts and lists reached through
list values are recursed into (`objDict_cons_listv`). -/
theorem C2_amended (d : List (Str × PyVal)) :
    ((objDict d).map Prod.fst = d.map Prod.fst)
    ∧ (∀ k n, (k, PyVal.int n) ∈ d → ((2147483647 : Int) < n ∨ containsPermissions k = true) →
        (k, PyVal.str (pyStrOfIntLike (PyVal.int n))) ∈ objDict d)
    ∧ (∀ k sub, (k, PyVal.dict sub) ∈ d → (k, PyVal.dict sub) ∈ objDict d) :=
  ⟨objDict_keys d, fun k n hm hc => objDict_mem_int_str d k n hm hc,
   fun k sub hm => objDict_mem_dict d k sub hm⟩

/-- Witness for `C2_amended` at the concrete record
`{'permissions': 5, 'a': {'b': 3000000000}}`. -/
theorem C2_amended_witness :
    ((sl "permissions", PyVal.str (pyStrOfIntLike (PyVal.int 5)))
        ∈ objDict [(sl "permissions", PyVal.int 5),
                   (sl "a", PyVal.dict [(sl "b", PyVal.int 3000000000)])])
    ∧ ((sl "a", PyVal.dict [(sl "b", PyVal.int 3000000000)])
        ∈ objDict [(sl "permissions", PyVal.int 5),
                   (sl "a", PyVal.dict [(sl "b", PyVal.int 3000000000)])]) :=
  ⟨(C2_amended _).2.1 (sl "permissions") 5 (List.mem_cons_self _ _) (Or.inr rfl),
   (C2_amended _).2.2 (sl "a") _ (List.mem_cons_of_mem _ (List.mem_cons_self _ _))⟩

theorem tokenPayload_no_dot (uid : Nat) : ('.' : Char) ∉ tokenPayload uid :=
  b64encode_no_dot _ (natRepr_bytes_lt uid)

theorem create_token_eq (mac : Str → Str → Str) (ts : Str) (uid : Nat) (p : Str) :
    create_token mac ts uid p
      = tokenPayload uid ++ '.' :: (ts ++ '.' :: mac p (tokenPayload uid ++ '.' :: ts)) := by
  simp [create_token, tokenPayload]

theorem token_decode (uid : Nat) (ts sig : Str) :
    (b64decode ((pySplitDot (tokenPayload uid ++ '.' :: (ts ++ '.' :: sig))).headD [])).bind
        parseDecBytes = some uid := by
  rw [pySplitDot_head _ _ (tokenPayload_no_dot uid)]
  unfold tokenPayload
  rw [b64decode_encode _ (natRepr_bytes_lt uid)]
  simp [parseDecBytes_natRepr]

theorem unsignOk_eval (mac : Str → Str → Str) (key p ts : Str) (uid : Nat)
    (hdot : ('.' : Char) ∉ mac p (tokenPayload uid ++ '.' :: ts)) :
    unsignOk mac key (create_token mac ts uid p)
      = (mac p (tokenPayload uid ++ '.' :: ts) == mac key (tokenPayload uid ++ '.' :: ts)) := by
  rw [create_token_eq]
  have hassoc : tokenPayload uid ++ '.' :: (ts ++ '.' :: mac p (tokenPayload uid ++ '.' :: ts))
      = (tokenPayload uid ++ '.' :: ts) ++ '.' :: mac p (tokenPayload uid ++ '.' :: ts) := by
    simp
  rw [hassoc]
  unfold unsignOk
  rw [rsplitLastDot_append _ _ hdot]
  have hcontains : (tokenPayload uid ++ '.' :: ts).contains '.' = true := by
    simp [List.contains]
  simp [hcontains]

theorem userOnly_password_val (u : VUser) : (userOnly u [sl "password"]).password = u.password := rfl

theorem userOnly_password_record (u : VUser) :
    userOnly u [sl "password"] = { blankUser with password := u.password } := rfl

theorem macW_no_dot : ∀ k v, ('.' : Char) ∉ macW k v := by
  intro k v h
  simp [macW, List.mem_filter] at h

/-- C4: round-trip of the token codec — when the store maps `uid` to the
very password hash a token was created with, `verify_token` succeeds
and the returned record is the stored user, whose id is the originating
`uid`.  The signature primitive is assumed to produce dot-free output
(as the real base64-encoded HMAC does). -/
theorem C4_token_roundtrip (mac : Str → Str → Str) (store : Store) (ts : Str)
    (uid : Nat) (u : VUser)
    (hfind : findUser store uid = some u)
    (hmacdot : ∀ k v, ('.' : Char) ∉ mac k v) :
    verify_token mac store (some (create_token mac ts uid u.password)) .none .none = .ok u
    ∧ u.id = uid := by
  constructor
  · have hs : unsignOk mac (userOnly u [sl "password"]).password
        (create_token mac ts uid u.password) = true := by
      rw [userOnly_password_val, unsignOk_eval mac u.password u.password ts uid (hmacdot _ _)]
      simp
    rw [create_token_eq] at hs ⊢
    simp only [verify_token, token_decode, hfind, hs]
    simp [normFields, truthyFields, hfind]
  · have := List.find?_some hfind
    simpa using this

/-- Witness for `C4_token_roundtrip` at the concrete store `stW`. -/
theorem C4_token_roundtrip_witness :
    findUser stW 7 = some uW
    ∧ verify_token macW stW (some (create_token macW (sl "T") 7 uW.password)) .none .none = .ok uW
    ∧ uW.id = 7 :=
  ⟨rfl, (C4_token_roundtrip macW stW (sl "T") 7 uW rfl macW_no_dot).1,
   (C4_token_roundtrip macW stW (sl "T") 7 uW rfl macW_no_dot).2⟩

/-- C5: a token issued under a prior password hash `oldp` fails
verification with the 401 signature error once the stored hash differs
from `oldp` — provided the signature primitive separates the two keys
on this payload (the cryptographic assumption on the HMAC) — and the
model consults no revocation state: rejection follows from the
signature check alone. -/
theorem C5_password_change_invalidates (mac : Str → Str → Str) (store : Store) (ts : Str)
    (uid : Nat) (u : VUser) (oldp : Str)
    (hfind : findUser store uid = some u)
    (hchanged : u.password ≠ oldp)
    (hdot : ('.' : Char) ∉ mac oldp (tokenPayload uid ++ '.' :: ts))
    (hsep : mac oldp (tokenPayload uid ++ '.' :: ts) ≠ mac u.password (tokenPayload uid ++ '.' :: ts)) :
    verify_token mac store (some (create_token mac ts uid oldp)) .none .none
      = .error (.http 401 "Signature on Authorization is Invalid") := by
  have hs : unsignOk mac (userOnly u [sl "password"]).password
      (create_token mac ts uid oldp) = false := by
    rw [userOnly_password_val, unsignOk_eval mac u.password oldp ts uid hdot]
    exact beq_eq_false_iff_ne.mpr hsep
  rw [create_token_eq] at hs ⊢
  simp only [verify_token, token_decode, hfind, hs]
  simp

/-- Witness for `C5_password_change_invalidates`: a token signed with
the old hash `"h0"` is rejected once the store holds `"h1"`. -/
theorem C5_password_change_invalidates_witness :
    findUser stW 7 = some uW
    ∧ uW.password ≠ sl "h0"
    ∧ verify_token macW stW (some (create_token macW (sl "T") 7 (sl "h0"))) .none .none
        = .error (.http 401 "Signature on Authorization is Invalid") :=
  ⟨rfl, by decide,
   C5_password_change_invalidates macW stW (sl "T") 7 uW (sl "h0") rfl (by decide)
     (macW_no_dot _ _) (by decide)⟩

theorem verify_token_str_id (mac : Str → Str → Str) (store : Store) (tok : Str)
    (uid : Nat) (u : VUser)
    (hdec : (b64decode ((pySplitDot tok).headD [])).bind parseDecBytes = some uid)
    (hfind : findUser store uid = some u)
    (hs : unsignOk mac (userOnly u [sl "password"]).password tok = true) :
    verify_token mac store (some tok) (.str (sl "id")) .none = .error .queryException := by
  have hmap : normFields (.str (sl "id")) = some [['i'],['d']] := rfl
  have hfetch : fetchOnly store uid [['i'],['d']] = .error .queryException := by
    unfold fetchOnly
    rw [show (([['i'],['d']] : List Str).all (fun f => decide (f ∈ knownUserFields))) = false
      from by decide]
    rfl
  simp only [verify_token, hdec, hfind, hs, hmap]
  rw [if_neg (show ¬(some ([['i'],['d']] : List Str) = some [sl "id"]) from by decide)]
  simp only [normFields, truthyFields]
  simp [hfetch]

/-- C10 counterexample: with the string projection `fields='id'` (not
the list `['id']`), `list('id')` explodes into the column names
`['i','d']`, which fail projection validation — the call raises a query
error instead of returning the password-carrying record the claim
describes for both spellings. -/
theorem C10_counterexample :
    verify_token macW stW (some (create_token macW (sl "T") 7 (sl "h1"))) (.str (sl "id")) .none
      = .error .queryException := rfl

/-- C10 (amended): for a valid token, `fields=['id']` hits the
special case and returns the record fetched with only the password
column, with its id assigned — so it carries the stored password hash
besides the id; but `fields='id'` (a string) is expanded
character-wise to `['i','d']` and the projected re-fetch fails with a
query error. -/
theorem C10_amended (mac : Str → Str → Str) (store : Store) (ts : Str)
    (uid : Nat) (u : VUser)
    (hfind : findUser store uid = some u)
    (hmacdot : ∀ k v, ('.' : Char) ∉ mac k v) :
    verify_token mac store (some (create_token mac ts uid u.password)) (.list [sl "id"]) .none
      = .ok { blankUser with password := u.password, id := uid }
    ∧ verify_token mac store (some (create_token mac ts uid u.password)) (.str (sl "id")) .none
      = .error .queryException := by
  have hs : unsignOk mac (userOnly u [sl "password"]).password
      (create_token mac ts uid u.password) = true := by
    rw [userOnly_password_val, unsignOk_eval mac u.password u.password ts uid (hmacdot _ _)]
    simp
  constructor
  · rw [create_token_eq] at hs ⊢
    simp only [verify_token, token_decode, hfind, hs]
    simp [normFields, userOnly_password_record]
  · have hdec : (b64decode ((pySplitDot (create_token mac ts uid u.password)).headD [])).bind
        parseDecBytes = some uid := by
      rw [create_token_eq]
      exact token_decode uid ts _
    exact verify_token_str_id mac store _ uid u hdec hfind hs

/-- Witness for `C10_amended` at the concrete store `stW`. -/
theorem C10_amended_witness :
    findUser stW 7 = some uW
    ∧ verify_token macW stW (some (create_token macW (sl "T") 7 uW.password))
        (.list [sl "id"]) .none = .ok { blankUser with password := uW.password, id := 7 }
    ∧ verify_token macW stW (some (create_token macW (sl "T") 7 uW.password))
        (.str (sl "id")) .none = .error .queryException :=
  ⟨rfl, (C10_amended macW stW (sl "T") 7 uW rfl macW_no_dot).1,
   (C10_amended macW stW (sl "T") 7 uW rfl macW_no_dot).2⟩

/-- C8 counterexample: a malformed token and a token naming an unknown
user produce observably different errors (same 401 status, different
messages), so the claim that all failure modes collapse to the same
outcome, leaving the caller unable to distinguish which check failed,
is false. -/
theorem C8_counterexample :
    verify_token macW stW (some (sl "!!!.x.y")) .none .none
        = .error (.http 401 "Failed to get container volume for Authorization")
    ∧ verify_token macW stW (some (create_token macW (sl "T") 8 (sl "h1"))) .none .none
        = .error (.http 401 "Object for Authorization not found")
    ∧ VErr.http 401 "Failed to get container volume for Authorization"
        ≠ VErr.http 401 "Object for Authorization not found" :=
  ⟨rfl, rfl, by decide⟩

/-- C8 (amended): the three verification failure modes all surface as
HTTP 401 — authorization rejected — but each carries its own message
(undecodable id segment, unknown user id, bad signature), and the
three messages are pairwise distinct, so the failing check is
distinguishable by the caller. -/
theorem C8_amended (mac : Str → Str → Str) (store : Store) (t1 t2 t3 : Str)
    (uid2 uid3 : Nat) (u3 : VUser) :
    ((b64decode ((pySplitDot t1).headD [])).bind parseDecBytes = Option.none →
       verify_token mac store (some t1) .none .none
         = .error (.http 401 "Failed to get container volume for Authorization"))
    ∧ ((b64decode ((pySplitDot t2).headD [])).bind parseDecBytes = some uid2 →
       findUser store uid2 = Option.none →
       verify_token mac store (some t2) .none .none
         = .error (.http 401 "Object for Authorization not found"))
    ∧ ((b64decode ((pySplitDot t3).headD [])).bind parseDecBytes = some uid3 →
       findUser store uid3 = some u3 →
       unsignOk mac (userOnly u3 [sl "password"]).password t3 = false →
       verify_token mac store (some t3) .none .none
         = .error (.http 401 "Signature on Authorization is Invalid"))
    ∧ (("Failed to get container volume for Authorization" : String)
          ≠ "Object for Authorization not found"
       ∧ ("Failed to get container volume for Authorization" : String)
          ≠ "Signature on Authorization is Invalid"
       ∧ ("Object for Authorization not found" : String)
          ≠ "Signature on Authorization is Invalid") := by
  refine ⟨fun h1 => ?_, fun h2 hf2 => ?_, fun h3 hf3 hsig => ?_, by decide, by decide, by decide⟩
  · simp only [verify_token, h1]
  · simp only [verify_token, h2, hf2]
  · simp only [verify_token, h3, hf3, hsig]
    simp

/-- Witness for `C8_amended`: the three modes exhibited concretely — a
garbage token, a token for the absent id 8, and a token for user 7
signed with the wrong password. -/
theorem C8_amended_witness :
    ((b64decode ((pySplitDot (sl "!!!.x.y")).headD [])).bind parseDecBytes = Option.none)
    ∧ verify_token macW stW (some (sl "!!!.x.y")) .none .none
        = .error (.http 401 "Failed to get container volume for Authorization")
    ∧ findUser stW 8 = Option.none
    ∧ verify_token macW stW (some (create_token macW (sl "T") 8 (sl "h1"))) .none .none
        = .error (.http 401 "Object for Authorization not found")
    ∧ unsignOk macW (userOnly uW [sl "password"]).password
        (create_token macW (sl "T") 7 (sl "h0")) = false
    ∧ verify_token macW stW (some (create_token macW (sl "T") 7 (sl "h0"))) .none .none
        = .error (.http 401 "Signature on Authorization is Invalid") :=
  ⟨by decide,
   (C8_amended macW stW (sl "!!!.x.y") (create_token macW (sl "T") 8 (sl "h1"))
      (create_token macW (sl "T") 7 (sl "h0")) 8 7 uW).1 (by decide),
   rfl,
   (C8_amended macW stW (sl "!!!.x.y") (create_token macW (sl "T") 8 (sl "h1"))
      (create_token macW (sl "T") 7 (sl "h0")) 8 7 uW).2.1 (by decide) rfl,
   by decide,
   (C8_amended macW stW (sl "!!!.x.y") (create_token macW (sl "T") 8 (sl "h1"))
      (create_token macW (sl "T") 7 (sl "h0")) 8 7 uW).2.2.1 (by decide) rfl (by decide)⟩

/-- C1: the MFA acceptance condition.  The claim (and spec) say a code
is accepted if it equals a current recovery code OR the live TOTP
value; the source's check `code not in recoveries or code != totp.now()`
rejects unless the code is simultaneously a recovery code AND the live
TOTP value.  Evaluated at the failing input: user 7 has recovery code
`"RRRR"` and live TOTP `"123456"`; supplying the valid recovery code —
and likewise the valid live code — is rejected as `MfaInvalid`, and a
full login with the correct password and the recovery code fails the
same way. -/
theorem C1_code_bug_eval :
    get_recoveries mfaStore 7 = [sl "RRRR"]
    ∧ totpW (sl "SECRET") ≠ sl "RRRR"
    ∧ verify_mfa totpW mfaStore 7 (some (sl "RRRR"))
        = .error (.http 403 "mfa code is invalid.")
    ∧ verify_mfa totpW mfaStore 7 (some (sl "123456"))
        = .error (.http 403 "mfa code is invalid.")
    ∧ login macW pverifyW totpW (sl "T") mfaStore (sl "w@x.y") (sl "h1") (some (sl "RRRR"))
        = .error (.http 403 "mfa code is invalid.") :=
  ⟨rfl, by decide, rfl, rfl, rfl⟩

/-- C6: two-run indistinguishability of login failures — an existing
email with a wrong password and an absent email produce the identical
error value (same status, same message). -/
theorem C6_login_indistinguishable (mac : Str → Str → Str) (pverify : Str → Str → Bool)
    (totpNow : Str → Str) (ts : Str) (store : Store) (e1 pw1 e2 pw2 : Str)
    (c1 c2 : Option Str) (u : VUser)
    (h1 : findByEmail store e1 = some u)
    (h2 : pverify u.password pw1 = false)
    (h3 : findByEmail store e2 = Option.none) :
    login mac pverify totpNow ts store e1 pw1 c1 = login mac pverify totpNow ts store e2 pw2 c2
    ∧ login mac pverify totpNow ts store e1 pw1 c1
        = .error (.http 400 "Invalid email or password") := by
  have hproj : (userOnly u [sl "password", sl "id"]).password = u.password := rfl
  have hl1 : login mac pverify totpNow ts store e1 pw1 c1
      = .error (.http 400 "Invalid email or password") := by
    simp only [login, h1, hproj, h2]
    simp
  have hl2 : login mac pverify totpNow ts store e2 pw2 c2
      = .error (.http 400 "Invalid email or password") := by
    simp only [login, h3]
  exact ⟨hl1.trans hl2.symm, hl1⟩

/-- Witness for `C6_login_indistinguishable`: wrong password for the
existing `uW` versus a ghost email, on the concrete store `stW`. -/
theorem C6_login_indistinguishable_witness :
    findByEmail stW (sl "w@x.y") = some uW
    ∧ pverifyW uW.password (sl "WRONG") = false
    ∧ findByEmail stW (sl "ghost@x.y") = Option.none
    ∧ login macW pverifyW totpW (sl "T") stW (sl "w@x.y") (sl "WRONG") Option.none
        = login macW pverifyW totpW (sl "T") stW (sl "ghost@x.y") (sl "pw") Option.none
    ∧ login macW pverifyW totpW (sl "T") stW (sl "w@x.y") (sl "WRONG") Option.none
        = .error (.http 400 "Invalid email or password") :=
  ⟨rfl, by decide, rfl,
   (C6_login_indistinguishable macW pverifyW totpW (sl "T") stW (sl "w@x.y") (sl "WRONG")
      (sl "ghost@x.y") (sl "pw") Option.none Option.none uW rfl (by decide) rfl).1,
   (C6_login_indistinguishable macW pverifyW totpW (sl "T") stW (sl "w@x.y") (sl "WRONG")
      (sl "ghost@x.y") (sl "pw") Option.none Option.none uW rfl (by decide) rfl).2⟩

/-! ## Discriminator allocation (claim C7) -/
theorem digitChar_inj {x y : Nat} (hx : x < 10) (hy : y < 10)
    (h : digitChar x = digitChar y) : x = y := by
  have := congrArg Char.toNat h
  rw [digitChar_toNat hx, digitChar_toNat hy] at this
  omega

theorem pad4_inj {a b : Nat} (ha : a ≤ 9999) (hb : b ≤ 9999) (h : pad4 a = pad4 b) : a = b := by
  simp only [pad4, List.cons.injEq, and_true] at h
  obtain ⟨h1, h2, h3, h4⟩ := h
  have e1 := digitChar_inj (Nat.mod_lt _ (by norm_num)) (Nat.mod_lt _ (by norm_num)) h1
  have e2 := digitChar_inj (Nat.mod_lt _ (by norm_num)) (Nat.mod_lt _ (by norm_num)) h2
  have e3 := digitChar_inj (Nat.mod_lt _ (by norm_num)) (Nat.mod_lt _ (by norm_num)) h3
  have e4 := digitChar_inj (Nat.mod_lt _ (by norm_num)) (Nat.mod_lt _ (by norm_num)) h4
  omega

theorem c7_countN (n : Nat) : countUsername (c7StoreN n) (sl "bob") = n := by
  have hall : ∀ u ∈ (List.range n).map c7mk, (u.username == sl "bob") = true := by
    intro u hu
    simp only [List.mem_map, List.mem_range] at hu
    obtain ⟨i, _, rfl⟩ := hu
    simp [c7mk]
  simp only [countUsername, c7StoreN]
  rw [List.filter_eq_self.mpr hall]
  simp

theorem c7_freeN (n : Nat) (hn : n ≤ 9499) :
    discriminatorTaken (c7StoreN n) (sl "bob") (sl "9500") = false := by
  simp only [discriminatorTaken, c7StoreN]
  rw [List.any_eq_false]
  intro u hu
  simp only [List.mem_map, List.mem_range] at hu
  obtain ⟨i, hi, rfl⟩ := hu
  simp only [c7mk, Bool.and_eq_true, beq_iff_eq, not_and]
  intro _ heq
  have h95 : i + 1 = 9500 :=
    pad4_inj (by omega) (by norm_num) (heq.trans (show sl "9500" = pad4 9500 from rfl))
  omega

theorem c7_email_freeN (n : Nat) : findByEmail (c7StoreN n) (sl "new@x.y") = Option.none := by
  simp only [findByEmail, c7StoreN]
  rw [List.find?_eq_none]
  intro u hu
  simp only [List.mem_map, List.mem_range] at hu
  obtain ⟨i, hi, rfl⟩ := hu
  simp [c7mk, sl]

theorem c7_allocN (n : Nat) (hn : n ≤ 9000) :
    get_available_discriminator (c7StoreN n) (sl "bob") [sl "9500"]
      = .ok (some (sl "9500")) := by
  unfold get_available_discriminator is_too_used
  rw [c7_countN]
  simp only [gt_iff_lt, Nat.not_lt.mpr hn, if_false]
  simp [List.find?, c7_freeN n (by omega)]

/-- C7 counterexample: with exactly 9000 distinct discriminators of the
username `"bob"` in use, registration is NOT rejected outright
(`is_too_used` fires only above 9000), and a 9001-st distinct
discriminator is successfully registered when a random pick is free —
the claim asserts rejection in both respects. -/
theorem C7_counterexample :
    countUsername (c7StoreN 9000) (sl "bob") = 9000
    ∧ get_available_discriminator (c7StoreN 9000) (sl "bob") [sl "9500"]
        = .ok (some (sl "9500"))
    ∧ create_user hashW 424242 [sl "9500"] (c7StoreN 9000) (sl "new@x.y") (sl "bob") (sl "pw")
        = .ok (c7NewUser,
               { c7StoreN 9000 with
                   users := (c7StoreN 9000).users ++ [c7NewUser],
                   settings := (c7StoreN 9000).settings ++ [defaultSettings 424242] }) := by
  refine ⟨c7_countN 9000, c7_allocN 9000 (by norm_num), ?_⟩
  simp only [create_user, c7_email_freeN 9000, c7_allocN 9000 (by norm_num)]
  rfl

/-- C7 (amended): the allocator rejects outright with the
username-saturated error only when strictly more than 9000 users carry
the username; at 9000 or fewer, the ten random picks are attempted and
some collision-free pick wins whenever one of them is free; and when
every one of the picks collides, registration fails with the same
username-saturated error. -/
theorem C7_amended (store : Store) (username : Str) (rolls : List Str) :
    (countUsername store username > 9000 →
       get_available_discriminator store username rolls
         = .error (.http 400 "Too many people are using this username."))
    ∧ (countUsername store username ≤ 9000 →
       (∃ d ∈ rolls.take 10, discriminatorTaken store username d = false) →
       ∃ w, get_available_discriminator store username rolls = .ok (some w)
         ∧ discriminatorTaken store username w = false)
    ∧ (∀ hash newId email password,
       findByEmail store email = Option.none →
       countUsername store username ≤ 9000 →
       (∀ d ∈ rolls.take 10, discriminatorTaken store username d = true) →
       create_user hash newId rolls store email username password
         = .error (.http 400 "Too many people are using this username.")) := by
  refine ⟨fun h => ?_, fun hle hex => ?_, fun hash newId email password hemail hle hall => ?_⟩
  · simp [get_available_discriminator, is_too_used, h]
  · have hsome : ((rolls.take 10).find?
        (fun d => !discriminatorTaken store username d)).isSome := by
      rw [List.find?_isSome]
      obtain ⟨d, hd, hfree⟩ := hex
      exact ⟨d, hd, by simp [hfree]⟩
    obtain ⟨w, hw⟩ := Option.isSome_iff_exists.mp hsome
    refine ⟨w, ?_, ?_⟩
    · simp [get_available_discriminator, is_too_used, Nat.not_lt.mpr hle, hw]
    · have := List.find?_some hw
      simpa using this
  · have halloc : get_available_discriminator store username rolls = .ok Option.none := by
      have hnone : (rolls.take 10).find? (fun d => !discriminatorTaken store username d)
          = Option.none := by
        rw [List.find?_eq_none]
        intro d hd
        simp [hall d hd]
      simp [get_available_discriminator, is_too_used, Nat.not_lt.mpr hle, hnone]
    simp only [create_user, hemail, halloc]

/-- Witness for `C7_amended`: outright rejection at 9001 users of
`"bob"`; success of the free pick `"9500"` at 9000 users; and the
saturated error when all ten draws collide with the existing
discriminator `"0001"` of `uW`. -/
theorem C7_amended_witness :
    (countUsername (c7StoreN 9001) (sl "bob") > 9000
     ∧ get_available_discriminator (c7StoreN 9001) (sl "bob") [sl "9500"]
         = .error (.http 400 "Too many people are using this username."))
    ∧ (countUsername (c7StoreN 9000) (sl "bob") ≤ 9000
       ∧ ∃ w, get_available_discriminator (c7StoreN 9000) (sl "bob") [sl "9500"]
           = .ok (some w) ∧ discriminatorTaken (c7StoreN 9000) (sl "bob") w = false)
    ∧ (findByEmail stW (sl "n@x.y") = Option.none
       ∧ (∀ d ∈ (List.replicate 10 (sl "0001")).take 10,
            discriminatorTaken stW (sl "alice") d = true)
       ∧ create_user hashW 424242 (List.replicate 10 (sl "0001")) stW (sl "n@x.y")
            (sl "alice") (sl "pw")
         = .error (.http 400 "Too many people are using this username.")) := by
  refine ⟨⟨?_, ?_⟩, ⟨?_, ?_⟩, rfl, ?_, ?_⟩
  · rw [c7_countN]
    norm_num
  · exact (C7_amended (c7StoreN 9001) (sl "bob") [sl "9500"]).1
      (by rw [c7_countN]; norm_num)
  · rw [c7_countN]
  · exact (C7_amended (c7StoreN 9000) (sl "bob") [sl "9500"]).2.1
      (by rw [c7_countN])
      ⟨sl "9500", by simp, c7_freeN 9000 (by norm_num)⟩
  · decide
  · exact (C7_amended stW (sl "alice") (List.replicate 10 (sl "0001"))).2.2
      hashW 424242 (sl "n@x.y") (sl "pw") rfl (by decide) (by decide)

theorem botStore_guildCount : guildCount botStore 5 = 2500 := by
  have hall : ∀ m ∈ botMembers, (m.user_id == 5) = true := by
    intro m hm
    simp only [botMembers, List.mem_map, List.mem_range] at hm
    obtain ⟨i, _, rfl⟩ := hm
    rfl
  simp only [guildCount, botStore]
  rw [List.filter_eq_self.mpr hall]
  simp [botMembers]

/-- C9: the shard-count bug.  The `/gateway` route authorizes with the
id-only projection, so the record it receives carries only `password`
and `id`; its `bot` column reads as the unfetched default `False`, the
`if user.bot` branch is dead, and the route returns `shards = 1` even
for a bot with 2500 guild memberships, where the claim (and the
dead branch) prescribe `max(floor(2500 / 1000), 1) = 2`.  The fresh
ledger row and the `user_id`-free `session_start_limit` behave as
claimed. -/
theorem C9_code_bug_eval :
    botUser.bot = true
    ∧ guildCount botStore 5 = 2500
    ∧ max (guildCount botStore 5 / 1000) 1 = 2
    ∧ get_gateway macW botStore 0 (some (create_token macW (sl "T") 5 (sl "bp")))
        = .ok ({ url := "wss://gateway.derailed.one", shards := 1,
                 session_start_limit :=
                   [("total", 1000), ("remaining", 1000), ("max_concurrency", 16)] },
               { botStore with gateway := [⟨5, 1000, 1000, 16, 0⟩] }) := by
  refine ⟨rfl, botStore_guildCount, ?_, ?_⟩
  · rw [botStore_guildCount]
    rfl
  · rfl
